import Mathlib

/-!
The ToDo service of `pkg/service/v1/todo-service.go`

A shallow embedding of the five operations of `toDoServiceServer`
(`Create`, `Read`, `ReadAll`, `Update`, `Delete`) together with `checkAPI`
and `connect`.  The `database/sql` handle the service holds is a record of
the four capabilities the service calls (`Conn`, `PrepareContext`,
`ExecContext`, `QueryContext`); every operation threads the stored data and
a chronological log of the calls it makes on the handle.

Values of type `int64` (identifiers, affected row counts) are integers: the
service does no arithmetic on them.  Error values are the text of
`err.Error()`.
-/

namespace TodoService

/-! ## Time and timestamps -/

/-- Go `time.Time`, observed through `t.Unix()` and `t.Nanosecond()`. -/
structure Time where
  /-- seconds since the Unix epoch, `t.Unix()` -/
  sec : Int
  /-- nanosecond offset within the second, `t.Nanosecond()` -/
  nsec : Int
deriving DecidableEq, Repr

/-- The protobuf message `google.protobuf.Timestamp` (`Seconds int64`, `Nanos int32`). -/
structure Timestamp where
  Seconds : Int
  Nanos : Int
deriving DecidableEq, Repr

/-- Two's-complement wrap of an integer to the `int64` range. -/
def wrap64 (x : Int) : Int := (x + 2 ^ 63) % 2 ^ 64 - 2 ^ 63

/-- Go `time.Unix(sec, nsec)`: nanoseconds outside `[0, 1e9)` are carried into the seconds. -/
def timeUnix (sec nsec : Int) : Time :=
  if nsec < 0 ∨ nsec ≥ 1000000000 then
    let n := Int.tdiv nsec 1000000000
    let sec1 := wrap64 (sec + n)
    let nsec1 := nsec - n * 1000000000
    if nsec1 < 0 then ⟨wrap64 (sec1 - 1), nsec1 + 1000000000⟩ else ⟨sec1, nsec1⟩
  else ⟨sec, nsec⟩

/-- Seconds of 0001-01-01T00:00:00Z (`minValidSeconds` of package `ptypes`). -/
def minValidSeconds : Int := -62135596800

/-- Seconds of 10000-01-01T00:00:00Z (`maxValidSeconds` of package `ptypes`). -/
def maxValidSeconds : Int := 253402300800

/-- Text of a timestamp inside the error messages of package `ptypes` (the `%v` of the
protobuf message): the fields that are not zero, as `seconds:S` and `nanos:N`, separated
by a space; a field that is zero is left out. -/
def Timestamp.render (ts : Timestamp) : String :=
  let seconds := if ts.Seconds = 0 then [] else ["seconds:" ++ toString ts.Seconds]
  let nanos := if ts.Nanos = 0 then [] else ["nanos:" ++ toString ts.Nanos]
  " ".intercalate (seconds ++ nanos)

/-- Package `ptypes`, `validateTimestamp`: `none` when the timestamp is valid, the error
text otherwise.  A nil timestamp is invalid. -/
def validateTimestamp (ts : Option Timestamp) : Option String :=
  match ts with
  | none => some "timestamp: nil Timestamp"
  | some ts =>
    if ts.Seconds < minValidSeconds then
      some ("timestamp: " ++ ts.render ++ " before 0001-01-01")
    else if ts.Seconds ≥ maxValidSeconds then
      some ("timestamp: " ++ ts.render ++ " after 10000-01-01")
    else if ts.Nanos < 0 ∨ ts.Nanos ≥ 1000000000 then
      some ("timestamp: " ++ ts.render ++ ": nanos not in range [0, 1e9)")
    else none

/-- Package `ptypes`, `ptypes.Timestamp(ts)`: the decoded time together with the
validation error (`none` for a valid timestamp).  A nil timestamp decodes as the epoch. -/
def ptypesTimestamp (ts : Option Timestamp) : Time × Option String :=
  let t := match ts with
    | none => timeUnix 0 0
    | some ts => timeUnix ts.Seconds ts.Nanos
  (t, validateTimestamp ts)

/-- Package `ptypes`, `ptypes.TimestampProto(t)`: the timestamp of `t`, validated. -/
def ptypesTimestampProto (t : Time) : Except String Timestamp :=
  let ts : Timestamp := { Seconds := t.sec, Nanos := t.nsec }
  match validateTimestamp (some ts) with
  | some err => .error err
  | none => .ok ts

/-! ## Messages of `pkg/api/v1` -/

/-- Modelled from the spec: the `ToDo` message of the generated package `pkg/api/v1`,
which is not among the sources; the fields are the ones the service reads and writes.
`Reminder` is a pointer and may be nil. -/
structure ToDo where
  Id : Int
  Title : String
  Description : String
  Reminder : Option Timestamp
deriving DecidableEq, Repr

/-- Modelled from the spec: the `CreateRequest` message of `pkg/api/v1`; `ToDo` is a
pointer and may be nil. -/
structure CreateRequest where
  Api : String
  ToDo : Option ToDo
deriving DecidableEq, Repr

/-- Modelled from the spec: the `CreateResponse` message of `pkg/api/v1`. -/
structure CreateResponse where
  Api : String
  Id : Int
deriving DecidableEq, Repr

/-- Modelled from the spec: the `ReadRequest` message of `pkg/api/v1`. -/
structure ReadRequest where
  Api : String
  Id : Int
deriving DecidableEq, Repr

/-- Modelled from the spec: the `ReadResponse` message of `pkg/api/v1`. -/
structure ReadResponse where
  Api : String
  ToDo : Option ToDo
deriving DecidableEq, Repr

/-- Modelled from the spec: the `ReadAllRequest` message of `pkg/api/v1`. -/
structure ReadAllRequest where
  Api : String
deriving DecidableEq, Repr

/-- Modelled from the spec: the `ReadAllResponse` message of `pkg/api/v1`. -/
structure ReadAllResponse where
  Api : String
  ToDos : List ToDo
deriving DecidableEq, Repr

/-- Modelled from the spec: the `UpdateRequest` message of `pkg/api/v1`; `ToDo` is a
pointer and may be nil. -/
structure UpdateRequest where
  Api : String
  ToDo : Option ToDo
deriving DecidableEq, Repr

/-- Modelled from the spec: the `UpdateResponse` message of `pkg/api/v1`. -/
structure UpdateResponse where
  Api : String
  Updated : Int
deriving DecidableEq, Repr

/-- Modelled from the spec: the `DeleteRequest` message of `pkg/api/v1`. -/
structure DeleteRequest where
  Api : String
  Id : Int
deriving DecidableEq, Repr

/-- Modelled from the spec: the `DeleteResponse` message of `pkg/api/v1`. -/
structure DeleteResponse where
  Api : String
  Deleted : Int
deriving DecidableEq, Repr

/-! ## Status errors and outcomes -/

/-- The gRPC status codes (`google.golang.org/grpc/codes`) the service uses. -/
inductive Code where
  | Unknown
  | InvalidArgument
  | NotFound
  | Unimplemented
deriving DecidableEq, Repr

/-- A gRPC status error: `status.Error(code, msg)`. -/
structure Status where
  code : Code
  msg : String
deriving DecidableEq, Repr

/-- How a call of an operation ends: with a response (`return resp, nil`), with a
status error (`return nil, err`), or with the run-time panic of a nil pointer
dereference. -/
inductive Outcome (α : Type) where
  | ok (resp : α)
  | fail (err : Status)
  | nilDeref
deriving DecidableEq, Repr

/-- The status code an outcome fails with, when it is a failure. -/
def Outcome.failCode {α : Type} : Outcome α → Option Code
  | .fail err => some err.code
  | _ => none

/-! ## The store handle (`database/sql`) -/

/-- A value bound to a `?` placeholder of a statement. -/
inductive Arg where
  | int (i : Int)
  | str (s : String)
  | time (t : Time)
deriving DecidableEq, Repr

/-- The four columns of a row as `rows.Scan(&td.Id, &td.Title, &td.Description, &reminder)`
stores them. -/
structure Scanned where
  Id : Int
  Title : String
  Description : String
  Reminder : Time
deriving DecidableEq, Repr

/-- The result set `*sql.Rows` of a query.  `rows.Next()` delivers `items` in order and
then returns false; `rows.Err()` is `err`.  Each delivered row is given by what
`rows.Scan` into the four destinations does on it: the scanned values or the scan error. -/
structure Rows where
  items : List (Except String Scanned)
  err : Option String

/-- The `sql.Result` of an executed statement. -/
structure ExecResult where
  LastInsertId : Except String Int
  RowsAffected : Except String Int

/-- The capabilities of the `*sql.DB` handle the service uses, over stored data of type
`σ`.  An error is the text of `err.Error()`. -/
structure Store (σ : Type) where
  /-- Call `db.Conn(ctx)`: the error, or `none` when a connection is supplied -/
  Conn : σ → Option String
  /-- Call `db.PrepareContext(ctx, query)`: the error, or `none` when the statement is prepared -/
  PrepareContext : String → σ → Option String
  /-- Call `stm.ExecContext(ctx, args...)` on the statement prepared from the query text -/
  ExecContext : String → List Arg → σ → Except String ExecResult × σ
  /-- Call `stm.QueryContext(ctx, args...)` on the statement prepared from the query text -/
  QueryContext : String → List Arg → σ → Except String Rows

/-- A call made on the store handle. -/
inductive Call where
  | Conn
  | ConnClose
  | Prepare (query : String)
  | Exec (query : String) (args : List Arg)
  | Query (query : String) (args : List Arg)
  | RowsClose
deriving DecidableEq, Repr

/-- The stored data and the calls made on the handle so far, oldest first. -/
structure World (σ : Type) where
  st : σ
  calls : List Call

/-- Record a call. -/
def World.log {σ : Type} (w : World σ) (c : Call) : World σ :=
  { w with calls := w.calls ++ [c] }

/-- A deferred call (`defer c.Close()`, `defer rows.Close()`): it runs when the rest of
the function body has ended, however it ended. -/
def deferred {σ α : Type} (c : Call) (body : Outcome α × World σ) : Outcome α × World σ :=
  (body.1, body.2.log c)

/-- Call `db.PrepareContext(ctx, query)`, recorded in the call log. -/
def dbPrepare {σ : Type} (db : Store σ) (query : String) (w : World σ) :
    Option String × World σ :=
  (db.PrepareContext query w.st, w.log (.Prepare query))

/-- Call `stm.ExecContext(ctx, args...)`, recorded in the call log; the stored data becomes
what the store makes of it. -/
def stmExec {σ : Type} (db : Store σ) (query : String) (args : List Arg) (w : World σ) :
    Except String ExecResult × World σ :=
  ((db.ExecContext query args w.st).1,
    { st := (db.ExecContext query args w.st).2, calls := w.calls ++ [.Exec query args] })

/-- Call `stm.QueryContext(ctx, args...)`, recorded in the call log. -/
def stmQuery {σ : Type} (db : Store σ) (query : String) (args : List Arg) (w : World σ) :
    Except String Rows × World σ :=
  (db.QueryContext query args w.st, w.log (.Query query args))

/-! ## The service -/

/-- The constant `apiVersion`. -/
def apiVersion : String := "v1"

/-- The method `checkAPI`: `none` is the nil error. -/
def checkAPI (api : String) : Option Status :=
  if api.utf8ByteSize > 0 then
    if apiVersion ≠ api then
      some ⟨.Unimplemented,
        "unsupported api version: service implements API version '" ++ apiVersion ++
          "', but asked api version '" ++ api ++ "'"⟩
    else none
  else none

/-- The method `connect`: a connection from the pool, or the status error. -/
def connect {σ : Type} (db : Store σ) (w : World σ) : Except Status Unit × World σ :=
  match db.Conn w.st with
  | some err => (.error ⟨.Unknown, "cannot connect to database " ++ err⟩, w.log .Conn)
  | none => (.ok (), w.log .Conn)

/-- The method `Create`. -/
def Create {σ : Type} (db : Store σ) (r : CreateRequest) (w : World σ) :
    Outcome CreateResponse × World σ :=
  match checkAPI r.Api with
  | some err => (.fail err, w)
  | none =>
  match connect db w with
  | (.error err, w) => (.fail err, w)
  | (.ok _, w) =>
  deferred .ConnClose <|
  -- `r.ToDo.Reminder`: a field of the pointer `r.ToDo`
  match r.ToDo with
  | none => (.nilDeref, w)
  | some td =>
  match ptypesTimestamp td.Reminder with
  | (_, some err) => (.fail ⟨.InvalidArgument, "reminder filed has invalid " ++ err⟩, w)
  | (reminder, none) =>
  let query := "INSERT INTO ToDo(`Title`, `Description`, `Reminder`) VALUES(?, ?, ?)"
  match dbPrepare db query w with
  | (some err, w) => (.fail ⟨.InvalidArgument, "reminder filed has invalid " ++ err⟩, w)
  | (none, w) =>
  match stmExec db query [.str td.Title, .str td.Description, .time reminder] w with
  | (.error err, w) => (.fail ⟨.Unknown, "failed to insert into ToDo-> " ++ err⟩, w)
  | (.ok res, w) =>
  match res.LastInsertId with
  | .error err => (.fail ⟨.Unknown, "can not retrieve id for create todo " ++ err⟩, w)
  | .ok id => (.ok { Api := apiVersion, Id := id }, w)

/-- The method `Read`. -/
def Read {σ : Type} (db : Store σ) (r : ReadRequest) (w : World σ) :
    Outcome ReadResponse × World σ :=
  match checkAPI r.Api with
  | some err => (.fail err, w)
  | none =>
  match connect db w with
  | (.error err, w) => (.fail err, w)
  | (.ok _, w) =>
  deferred .ConnClose <|
  let query := "SELECT `ID`, `Title`, `Description`, `Reminder` FROM ToDo WHERE `ID`=?"
  match dbPrepare db query w with
  | (some err, w) => (.fail ⟨.InvalidArgument, "can not prepare query: " ++ err⟩, w)
  | (none, w) =>
  match stmQuery db query [.int r.Id] w with
  | (.error err, w) => (.fail ⟨.Unknown, "failed to select from ToDo-> " ++ err⟩, w)
  | (.ok rows, w) =>
  deferred .RowsClose <|
  -- `if !rows.Next()`
  match rows.items with
  | [] =>
    match rows.err with
    | some err => (.fail ⟨.Unknown, "failed to retrieve data from ToDo-> " ++ err⟩, w)
    | none =>
      (.fail ⟨.NotFound, "ToDo with ID='" ++ toString r.Id ++ "' is not found"⟩, w)
  | row :: rest =>
    -- `rows.Scan(&td.Id, &td.Title, &td.Description, &reminder)`
    match row with
    | .error err =>
      (.fail ⟨.Unknown, "failed to retrieve field values from ToDo row-> " ++ err⟩, w)
    | .ok sc =>
      match ptypesTimestampProto sc.Reminder with
      | .error err => (.fail ⟨.Unknown, "reminder field has invalid format-> " ++ err⟩, w)
      | .ok ts =>
        -- `if rows.Next()`
        match rest with
        | _ :: _ =>
          (.fail ⟨.Unknown, "found multiple ToDo rows with ID='" ++ toString r.Id ++ "'"⟩, w)
        | [] =>
          (.ok { Api := apiVersion,
                 ToDo := some { Id := sc.Id, Title := sc.Title,
                                Description := sc.Description, Reminder := some ts } }, w)

/-- The loop `for rows.Next() { ... }` of `ReadAll` over the rows still to be delivered,
with the list built so far. -/
def readAllLoop : List (Except String Scanned) → List ToDo → Except Status (List ToDo)
  | [], list => .ok list
  | row :: rest, list =>
    match row with
    | .error err =>
      .error ⟨.Unknown, "failed to retrieve field values from ToDo row-> " ++ err⟩
    | .ok sc =>
      match ptypesTimestampProto sc.Reminder with
      | .error err => .error ⟨.Unknown, "reminder field has invalid format-> " ++ err⟩
      | .ok ts =>
        readAllLoop rest
          (list ++ [{ Id := sc.Id, Title := sc.Title,
                      Description := sc.Description, Reminder := some ts }])

/-- The method `ReadAll`. -/
def ReadAll {σ : Type} (db : Store σ) (req : ReadAllRequest) (w : World σ) :
    Outcome ReadAllResponse × World σ :=
  match checkAPI req.Api with
  | some err => (.fail err, w)
  | none =>
  match connect db w with
  | (.error err, w) => (.fail err, w)
  | (.ok _, w) =>
  deferred .ConnClose <|
  let query := "SELECT `ID`, `Title`, `Description`, `Reminder` FROM ToDo"
  match dbPrepare db query w with
  | (some err, w) => (.fail ⟨.InvalidArgument, "Can not prepare context " ++ err⟩, w)
  | (none, w) =>
  match stmQuery db query [] w with
  | (.error err, w) => (.fail ⟨.Unknown, "failed to select from ToDo-> " ++ err⟩, w)
  | (.ok rows, w) =>
  deferred .RowsClose <|
  match readAllLoop rows.items [] with
  | .error err => (.fail err, w)
  | .ok list =>
    match rows.err with
    | some err => (.fail ⟨.Unknown, "failed to retrieve data from ToDo-> " ++ err⟩, w)
    | none => (.ok { Api := apiVersion, ToDos := list }, w)

/-- The method `Update`. -/
def Update {σ : Type} (db : Store σ) (r : UpdateRequest) (w : World σ) :
    Outcome UpdateResponse × World σ :=
  match checkAPI r.Api with
  | some err => (.fail err, w)
  | none =>
  match connect db w with
  | (.error err, w) => (.fail err, w)
  | (.ok _, w) =>
  deferred .ConnClose <|
  -- `r.ToDo.Reminder`: a field of the pointer `r.ToDo`
  match r.ToDo with
  | none => (.nilDeref, w)
  | some td =>
  match ptypesTimestamp td.Reminder with
  | (_, some err) => (.fail ⟨.InvalidArgument, "reminder filed has invalid " ++ err⟩, w)
  | (reminder, none) =>
  let query := "UPDATE ToDo SET `Title`=?, `Description`=?, `Reminder`=?"
  match dbPrepare db query w with
  | (some err, w) => (.fail ⟨.InvalidArgument, "Can not prepare context " ++ err⟩, w)
  | (none, w) =>
  match stmExec db query [.str td.Title, .str td.Description, .time reminder] w with
  | (.error err, w) => (.fail ⟨.Unknown, "failed to update into ToDo-> " ++ err⟩, w)
  | (.ok res, w) =>
  match res.RowsAffected with
  | .error err => (.fail ⟨.Unknown, "failed to retrieve row affected " ++ err⟩, w)
  | .ok rows =>
    if rows = 0 then
      (.fail ⟨.NotFound, "Todo with ID='" ++ toString td.Id ++ "' is not found"⟩, w)
    else (.ok { Api := apiVersion, Updated := rows }, w)

/-- The method `Delete`. -/
def Delete {σ : Type} (db : Store σ) (req : DeleteRequest) (w : World σ) :
    Outcome DeleteResponse × World σ :=
  match checkAPI req.Api with
  | some err => (.fail err, w)
  | none =>
  match connect db w with
  | (.error err, w) => (.fail err, w)
  | (.ok _, w) =>
  deferred .ConnClose <|
  let query := "DELETE FROM ToDo WHERE `ID`=?"
  match dbPrepare db query w with
  | (some err, w) => (.fail ⟨.Unknown, "failed to prepare statement ToDo-> " ++ err⟩, w)
  | (none, w) =>
  match stmExec db query [.int req.Id] w with
  | (.error err, w) => (.fail ⟨.Unknown, "failed to delete ToDo-> " ++ err⟩, w)
  | (.ok res, w) =>
  match res.RowsAffected with
  | .error err =>
    (.fail ⟨.Unknown, "failed to retrieve rows affected value-> " ++ err⟩, w)
  | .ok rows =>
    if rows = 0 then
      (.fail ⟨.NotFound, "ToDo with ID='" ++ toString req.Id ++ "' is not found"⟩, w)
    else (.ok { Api := apiVersion, Deleted := rows }, w)

/-! ## A relational table as the store -/

/-- A row of the table `ToDo`. -/
structure Row where
  ID : Int
  Title : String
  Description : String
  Reminder : Time
deriving DecidableEq, Repr

/-- Modelled from the spec: the relational store behind the handle, whose engine and
schema are not among the sources.  It holds the rows of the one table `ToDo` (columns
`ID`, `Title`, `Description`, `Reminder`) and whether it can supply a connection
(`connErr` is the error of `db.Conn` when it cannot). -/
structure Table where
  rows : List Row
  connErr : Option String
deriving DecidableEq, Repr

/-- The statements the table understands. -/
inductive Stmt where
  | insert
  | updateAll
  | deleteByID
  | selectByID
  | selectAll
deriving DecidableEq, Repr

/-- Modelled from the spec: the meaning the store gives to a statement text.  A statement
filters on `ID` exactly when its text carries `WHERE ID=?`. -/
def parseSQL (query : String) : Option Stmt :=
  if query = "INSERT INTO ToDo(`Title`, `Description`, `Reminder`) VALUES(?, ?, ?)" then
    some .insert
  else if query = "UPDATE ToDo SET `Title`=?, `Description`=?, `Reminder`=?" then
    some .updateAll
  else if query = "DELETE FROM ToDo WHERE `ID`=?" then
    some .deleteByID
  else if query = "SELECT `ID`, `Title`, `Description`, `Reminder` FROM ToDo WHERE `ID`=?" then
    some .selectByID
  else if query = "SELECT `ID`, `Title`, `Description`, `Reminder` FROM ToDo" then
    some .selectAll
  else none

/-- The largest `ID` among the rows, at least 0. -/
def maxID : List Row → Int
  | [] => 0
  | r :: rs => max r.ID (maxID rs)

/-- Modelled from the spec: the identifier the store assigns to an inserted row
(store-assigned, unique): one more than every identifier in the table. -/
def nextID (rows : List Row) : Int := maxID rows + 1

/-- The row a delivered result row is scanned from. -/
def Row.scan (r : Row) : Except String Scanned :=
  .ok { Id := r.ID, Title := r.Title, Description := r.Description, Reminder := r.Reminder }

/-- Whether an UPDATE that assigns the three columns changes the row. -/
def Row.changedBy (title description : String) (reminder : Time) (r : Row) : Bool :=
  !(decide (r.Title = title) && decide (r.Description = description) &&
    decide (r.Reminder = reminder))

/-- The time `t` cut down to a whole multiple of `unit` nanoseconds within its second. -/
def Time.truncate (unit : Int) (t : Time) : Time :=
  { sec := t.sec, nsec := t.nsec - t.nsec % unit }

/-- The time `t` cut down to whole microseconds. -/
def microseconds (t : Time) : Time := Time.truncate 1000 t

/-- Modelled from the spec: the store handle over a `Table`.  An INSERT appends a row
under a fresh identifier; an UPDATE without a filter assigns the three columns in every
row; a DELETE filtered by `ID` removes the rows of that identifier; the SELECTs deliver
the matching rows in table order.  Titles and descriptions are kept as they are bound.
A time bound to the `Reminder` column is kept as `keep t`: the store holds a time in its
native timestamp form, whose precision is the store's and is not fixed by the sources.
The affected row count of an UPDATE is the number of rows it changes (the MySQL default,
as the data source name of `pkg/cmd/server` sets no `clientFoundRows`). -/
def tableStoreKeeping (keep : Time → Time) : Store Table where
  Conn t := t.connErr
  PrepareContext query _ :=
    match parseSQL query with
    | some _ => none
    | none => some "Error 1064: You have an error in your SQL syntax"
  ExecContext query args t :=
    match parseSQL query, args with
    | some .insert, [.str title, .str description, .time reminder] =>
      (.ok { LastInsertId := .ok (nextID t.rows), RowsAffected := .ok 1 },
        { t with rows := t.rows ++
            [{ ID := nextID t.rows, Title := title, Description := description,
               Reminder := keep reminder }] })
    | some .updateAll, [.str title, .str description, .time reminder] =>
      (.ok { LastInsertId := .ok 0,
             RowsAffected :=
               .ok ((t.rows.filter
                 (Row.changedBy title description (keep reminder))).length : Nat) },
        { t with rows := t.rows.map fun r =>
            { r with Title := title, Description := description,
                     Reminder := keep reminder } })
    | some .deleteByID, [.int id] =>
      (.ok { LastInsertId := .ok 0,
             RowsAffected := .ok ((t.rows.filter fun r => decide (r.ID = id)).length : Nat) },
        { t with rows := t.rows.filter fun r => !decide (r.ID = id) })
    | _, _ => (.error "sql: statement cannot be executed", t)
  QueryContext query args t :=
    match parseSQL query, args with
    | some .selectByID, [.int id] =>
      .ok { items := (t.rows.filter fun r => decide (r.ID = id)).map Row.scan, err := none }
    | some .selectAll, [] =>
      .ok { items := t.rows.map Row.scan, err := none }
    | _, _ => .error "sql: statement cannot be queried"

/-- Modelled from the spec: the table store that keeps a time to the microsecond, the
finest form in which the MySQL store opened by `pkg/cmd/server` holds a timestamp:
nanoseconds below a whole microsecond are not kept. -/
def tableStore : Store Table := tableStoreKeeping microseconds

/-! ## Store stubs and the decoding of a row -/

/-- A store stub that supplies connections and prepares statements, and on which every
execution and every query fails. -/
def execFailStore : Store Unit where
  Conn _ := none
  PrepareContext _ _ := none
  ExecContext _ _ s := (.error "Error 1205: Lock wait timeout exceeded", s)
  QueryContext _ _ _ := .error "Error 1205: Lock wait timeout exceeded"

/-- A store stub that answers every query with the given result set. -/
def rowsStub (rows : Rows) : Store Unit where
  Conn _ := none
  PrepareContext _ _ := none
  ExecContext _ _ s := (.error "sql: statement cannot be executed", s)
  QueryContext _ _ _ := .ok rows

/-- The task a delivered row decodes to, as the spec words it: the row is scanned into
its four columns and the stored reminder is converted to the wire timestamp; `none` when
the row fails to scan or its reminder cannot be converted. -/
def decodeRow (row : Except String Scanned) : Option ToDo :=
  match row with
  | .error _ => none
  | .ok sc =>
    match ptypesTimestampProto sc.Reminder with
    | .error _ => none
    | .ok ts =>
      some { Id := sc.Id, Title := sc.Title, Description := sc.Description,
             Reminder := some ts }

/-! ## The version gate -/

theorem utf8ByteSize_go_pos (c : Char) (cs : List Char) :
    0 < String.utf8ByteSize.go (c :: cs) := by
  have h := Char.utf8Size_pos c
  simp only [String.utf8ByteSize.go]
  omega

theorem utf8ByteSize_pos_iff (s : String) : s.utf8ByteSize > 0 ↔ s ≠ "" := by
  obtain ⟨cs⟩ := s
  cases cs with
  | nil => simp [String.utf8ByteSize, String.utf8ByteSize.go]
  | cons c cs =>
    have h := utf8ByteSize_go_pos c cs
    have h2 : (String.mk (c :: cs)) ≠ "" := by
      intro h3
      have := congrArg String.data h3
      simp at this
    simp only [String.utf8ByteSize, gt_iff_lt, h, ne_eq, h2, not_false_eq_true]

theorem checkAPI_eq_none_iff (api : String) :
    checkAPI api = none ↔ api = "" ∨ api = "v1" := by
  unfold checkAPI
  by_cases h : api = ""
  · subst h; simp [String.utf8ByteSize, String.utf8ByteSize.go]
  · have hp := (utf8ByteSize_pos_iff api).2 h
    by_cases h2 : api = "v1"
    · subst h2; simp [apiVersion]
    · have h3 : apiVersion ≠ api := fun e => h2 (by rw [← e]; rfl)
      simp [hp, h, h2, h3]

theorem checkAPI_code (api : String) (err : Status) (h : checkAPI api = some err) :
    err.code = .Unimplemented := by
  unfold checkAPI at h
  split at h
  · split at h
    · cases h; rfl
    · cases h
  · cases h

/-! ## Failures other than the version gate never carry `Unimplemented` -/

theorem Create_not_unimplemented {σ : Type} (db : Store σ) (r : CreateRequest) (w : World σ)
    (h : checkAPI r.Api = none) : (Create db r w).1.failCode ≠ some .Unimplemented := by
  cases hc : db.Conn w.st <;> simp only [Create, connect, h, hc]
  · repeat' split
    all_goals simp_all [deferred, Outcome.failCode]
  · simp [Outcome.failCode]

theorem readAllLoop_error_code (items : List (Except String Scanned)) (list : List ToDo)
    (err : Status) (h : readAllLoop items list = .error err) : err.code = .Unknown := by
  induction items generalizing list with
  | nil => simp [readAllLoop] at h
  | cons row rest ih =>
    unfold readAllLoop at h
    split at h
    · cases h; rfl
    · split at h
      · cases h; rfl
      · exact ih _ h

theorem Read_not_unimplemented {σ : Type} (db : Store σ) (r : ReadRequest) (w : World σ)
    (h : checkAPI r.Api = none) : (Read db r w).1.failCode ≠ some .Unimplemented := by
  cases hc : db.Conn w.st <;> simp only [Read, connect, h, hc]
  · repeat' split
    all_goals simp_all [deferred, Outcome.failCode]
  · simp [Outcome.failCode]

theorem ReadAll_not_unimplemented {σ : Type} (db : Store σ) (req : ReadAllRequest)
    (w : World σ) (h : checkAPI req.Api = none) :
    (ReadAll db req w).1.failCode ≠ some .Unimplemented := by
  cases hc : db.Conn w.st <;> simp only [ReadAll, connect, h, hc]
  · repeat' split
    all_goals try simp_all [deferred, Outcome.failCode]
    next err hl => simp [readAllLoop_error_code _ _ _ hl]
  · simp [Outcome.failCode]

theorem Update_not_unimplemented {σ : Type} (db : Store σ) (r : UpdateRequest) (w : World σ)
    (h : checkAPI r.Api = none) : (Update db r w).1.failCode ≠ some .Unimplemented := by
  cases hc : db.Conn w.st <;> simp only [Update, connect, h, hc]
  · repeat' split
    all_goals simp_all [deferred, Outcome.failCode]
  · simp [Outcome.failCode]

theorem Delete_not_unimplemented {σ : Type} (db : Store σ) (req : DeleteRequest)
    (w : World σ) (h : checkAPI req.Api = none) :
    (Delete db req w).1.failCode ≠ some .Unimplemented := by
  cases hc : db.Conn w.st <;> simp only [Delete, connect, h, hc]
  · repeat' split
    all_goals simp_all [deferred, Outcome.failCode]
  · simp [Outcome.failCode]

/-- An operation that returns the gate's error untouched when the gate rejects, and never
fails with `Unimplemented` when the gate accepts, fails with `Unimplemented` exactly when
the api string is neither empty nor `"v1"`, and then leaves the stored data and the call
log as they were. -/
theorem gate_of_cases {σ α : Type} (api : String) (out : Outcome α × World σ) (w : World σ)
    (hrej : ∀ err, checkAPI api = some err → out = (.fail err, w))
    (hacc : checkAPI api = none → out.1.failCode ≠ some .Unimplemented) :
    (out.1.failCode = some .Unimplemented ↔ (api ≠ "" ∧ api ≠ "v1")) ∧
      (out.1.failCode = some .Unimplemented → out = (out.1, w)) := by
  cases hg : checkAPI api with
  | none =>
    have hn := hacc hg
    have := (checkAPI_eq_none_iff api).1 hg
    constructor
    · constructor
      · intro h; exact absurd h hn
      · rintro ⟨h1, h2⟩; rcases this with h | h <;> contradiction
    · intro h; exact absurd h hn
  | some err =>
    have ho := hrej err hg
    have hcode := checkAPI_code api err hg
    have hne : ¬ (api = "" ∨ api = "v1") := by
      intro h; rw [(checkAPI_eq_none_iff api).2 h] at hg; cases hg
    subst ho
    refine ⟨⟨fun _ => ?_, fun _ => ?_⟩, fun _ => rfl⟩
    · exact ⟨fun h => hne (Or.inl h), fun h => hne (Or.inr h)⟩
    · simp [Outcome.failCode, hcode]

/-- C1: each of the five operations fails with the `Unimplemented` classification if and
only if the api string of the request is non-empty and different from `"v1"`, and an
operation that fails that way returns the stored data and the call log unchanged: no
call (connection, prepare, execute, query) was made on the store.  `checkAPI` accepts
the empty string and `"v1"`. -/
theorem C1_version_gate {σ : Type} (db : Store σ) (w : World σ) :
    (∀ r : CreateRequest,
      ((Create db r w).1.failCode = some .Unimplemented ↔ (r.Api ≠ "" ∧ r.Api ≠ "v1")) ∧
      ((Create db r w).1.failCode = some .Unimplemented → (Create db r w).2 = w)) ∧
    (∀ r : ReadRequest,
      ((Read db r w).1.failCode = some .Unimplemented ↔ (r.Api ≠ "" ∧ r.Api ≠ "v1")) ∧
      ((Read db r w).1.failCode = some .Unimplemented → (Read db r w).2 = w)) ∧
    (∀ r : ReadAllRequest,
      ((ReadAll db r w).1.failCode = some .Unimplemented ↔ (r.Api ≠ "" ∧ r.Api ≠ "v1")) ∧
      ((ReadAll db r w).1.failCode = some .Unimplemented → (ReadAll db r w).2 = w)) ∧
    (∀ r : UpdateRequest,
      ((Update db r w).1.failCode = some .Unimplemented ↔ (r.Api ≠ "" ∧ r.Api ≠ "v1")) ∧
      ((Update db r w).1.failCode = some .Unimplemented → (Update db r w).2 = w)) ∧
    (∀ r : DeleteRequest,
      ((Delete db r w).1.failCode = some .Unimplemented ↔ (r.Api ≠ "" ∧ r.Api ≠ "v1")) ∧
      ((Delete db r w).1.failCode = some .Unimplemented → (Delete db r w).2 = w)) ∧
    checkAPI "" = none ∧ checkAPI "v1" = none := by
  refine ⟨fun r => ?_, fun r => ?_, fun r => ?_, fun r => ?_, fun r => ?_, ?_, ?_⟩
  · have h := gate_of_cases r.Api (Create db r w) w
      (fun err he => by simp [Create, he]) (Create_not_unimplemented db r w)
    exact ⟨h.1, fun hu => by rw [h.2 hu]⟩
  · have h := gate_of_cases r.Api (Read db r w) w
      (fun err he => by simp [Read, he]) (Read_not_unimplemented db r w)
    exact ⟨h.1, fun hu => by rw [h.2 hu]⟩
  · have h := gate_of_cases r.Api (ReadAll db r w) w
      (fun err he => by simp [ReadAll, he]) (ReadAll_not_unimplemented db r w)
    exact ⟨h.1, fun hu => by rw [h.2 hu]⟩
  · have h := gate_of_cases r.Api (Update db r w) w
      (fun err he => by simp [Update, he]) (Update_not_unimplemented db r w)
    exact ⟨h.1, fun hu => by rw [h.2 hu]⟩
  · have h := gate_of_cases r.Api (Delete db r w) w
      (fun err he => by simp [Delete, he]) (Delete_not_unimplemented db r w)
    exact ⟨h.1, fun hu => by rw [h.2 hu]⟩
  · exact (checkAPI_eq_none_iff "").2 (Or.inl rfl)
  · exact (checkAPI_eq_none_iff "v1").2 (Or.inr rfl)

/-! ## Connection failures -/

/-- C8 (as the code has it): a connection failure is classified `Unknown`, the
classification `Delete` also gives to a failed execution.  On a table that cannot supply
a connection `Delete` fails with `Unknown`, and on a store whose execution fails it fails
with the same code. -/
theorem C8_connection_failure_not_distinct :
    tableStore.Conn ⟨[], some "connection refused"⟩ = some "connection refused" ∧
    (Delete tableStore ⟨"v1", 1⟩ ⟨⟨[], some "connection refused"⟩, []⟩).1 =
      .fail ⟨.Unknown, "cannot connect to database connection refused"⟩ ∧
    (Delete execFailStore ⟨"v1", 1⟩ ⟨(), []⟩).1 =
      .fail ⟨.Unknown, "failed to delete ToDo-> Error 1205: Lock wait timeout exceeded"⟩ ∧
    (Delete tableStore ⟨"v1", 1⟩ ⟨⟨[], some "connection refused"⟩, []⟩).1.failCode =
      (Delete execFailStore ⟨"v1", 1⟩ ⟨(), []⟩).1.failCode := by
  have h : checkAPI "v1" = none := (checkAPI_eq_none_iff "v1").2 (Or.inr rfl)
  refine ⟨rfl, ?_, ?_, ?_⟩ <;>
    simp [Delete, connect, h, tableStore, tableStoreKeeping, microseconds, Time.truncate, execFailStore, deferred, dbPrepare, stmExec,
      World.log, Outcome.failCode]

/-- C8, amended: when the store cannot supply a connection, each of the five operations
on a request with an accepted api version fails with the `Unknown` classification and the
message `cannot connect to database ` followed by the store's error text, having made
the connection call only. -/
theorem C8_connection_failure {σ : Type} (db : Store σ) (w : World σ) (e : String)
    (hconn : db.Conn w.st = some e) :
    (∀ r : CreateRequest, checkAPI r.Api = none →
      Create db r w = (.fail ⟨.Unknown, "cannot connect to database " ++ e⟩, w.log .Conn)) ∧
    (∀ r : ReadRequest, checkAPI r.Api = none →
      Read db r w = (.fail ⟨.Unknown, "cannot connect to database " ++ e⟩, w.log .Conn)) ∧
    (∀ r : ReadAllRequest, checkAPI r.Api = none →
      ReadAll db r w = (.fail ⟨.Unknown, "cannot connect to database " ++ e⟩, w.log .Conn)) ∧
    (∀ r : UpdateRequest, checkAPI r.Api = none →
      Update db r w = (.fail ⟨.Unknown, "cannot connect to database " ++ e⟩, w.log .Conn)) ∧
    (∀ r : DeleteRequest, checkAPI r.Api = none →
      Delete db r w = (.fail ⟨.Unknown, "cannot connect to database " ++ e⟩, w.log .Conn)) := by
  refine ⟨fun r h => ?_, fun r h => ?_, fun r h => ?_, fun r h => ?_, fun r h => ?_⟩
  · simp only [Create, connect, h, hconn]
  · simp only [Read, connect, h, hconn]
  · simp only [ReadAll, connect, h, hconn]
  · simp only [Update, connect, h, hconn]
  · simp only [Delete, connect, h, hconn]

/-- C8, amended, at a table that refuses connections: `Read` of id 7 with api `"v1"`. -/
theorem C8_connection_failure_witness :
    Read tableStore ⟨"v1", 7⟩ ⟨⟨[], some "connection refused"⟩, []⟩ =
      (.fail ⟨.Unknown, "cannot connect to database " ++ "connection refused"⟩,
        World.log ⟨⟨[], some "connection refused"⟩, []⟩ .Conn) :=
  (C8_connection_failure tableStore ⟨⟨[], some "connection refused"⟩, []⟩
    "connection refused" rfl).2.1 ⟨"v1", 7⟩ ((checkAPI_eq_none_iff "v1").2 (Or.inr rfl))

/-! ## The api string of a response -/

theorem Create_ok_api {σ : Type} (db : Store σ) (r : CreateRequest) (w : World σ)
    (resp : CreateResponse) (h : (Create db r w).1 = .ok resp) :
    resp.Api = apiVersion ∧ checkAPI r.Api = none := by
  cases hg : checkAPI r.Api with
  | some err => simp [Create, hg] at h
  | none =>
    refine ⟨?_, rfl⟩
    cases hc : db.Conn w.st <;> simp only [Create, connect, hg, hc] at h
    · revert h
      repeat' split
      all_goals simp_all [deferred]
      all_goals (intro h; rw [← h])
    · cases h

theorem Read_ok_api {σ : Type} (db : Store σ) (r : ReadRequest) (w : World σ)
    (resp : ReadResponse) (h : (Read db r w).1 = .ok resp) :
    resp.Api = apiVersion ∧ checkAPI r.Api = none := by
  cases hg : checkAPI r.Api with
  | some err => simp [Read, hg] at h
  | none =>
    refine ⟨?_, rfl⟩
    cases hc : db.Conn w.st <;> simp only [Read, connect, hg, hc] at h
    · revert h
      repeat' split
      all_goals simp_all [deferred]
      all_goals (intro h; rw [← h])
    · cases h

theorem ReadAll_ok_api {σ : Type} (db : Store σ) (r : ReadAllRequest) (w : World σ)
    (resp : ReadAllResponse) (h : (ReadAll db r w).1 = .ok resp) :
    resp.Api = apiVersion ∧ checkAPI r.Api = none := by
  cases hg : checkAPI r.Api with
  | some err => simp [ReadAll, hg] at h
  | none =>
    refine ⟨?_, rfl⟩
    cases hc : db.Conn w.st <;> simp only [ReadAll, connect, hg, hc] at h
    · revert h
      repeat' split
      all_goals simp_all [deferred]
      all_goals (intro h; rw [← h])
    · cases h

theorem Update_ok_api {σ : Type} (db : Store σ) (r : UpdateRequest) (w : World σ)
    (resp : UpdateResponse) (h : (Update db r w).1 = .ok resp) :
    resp.Api = apiVersion ∧ checkAPI r.Api = none := by
  cases hg : checkAPI r.Api with
  | some err => simp [Update, hg] at h
  | none =>
    refine ⟨?_, rfl⟩
    cases hc : db.Conn w.st <;> simp only [Update, connect, hg, hc] at h
    · revert h
      repeat' split
      all_goals simp_all [deferred]
      all_goals (intro h; rw [← h])
    · cases h

theorem Delete_ok_api {σ : Type} (db : Store σ) (r : DeleteRequest) (w : World σ)
    (resp : DeleteResponse) (h : (Delete db r w).1 = .ok resp) :
    resp.Api = apiVersion ∧ checkAPI r.Api = none := by
  cases hg : checkAPI r.Api with
  | some err => simp [Delete, hg] at h
  | none =>
    refine ⟨?_, rfl⟩
    cases hc : db.Conn w.st <;> simp only [Delete, connect, hg, hc] at h
    · revert h
      repeat' split
      all_goals simp_all [deferred]
      all_goals (intro h; rw [← h])
    · cases h

theorem api_of_ok (api respApi : String) (h : respApi = apiVersion ∧ checkAPI api = none) :
    respApi = "v1" ∧ (api ≠ "" → respApi = api) := by
  refine ⟨h.1, fun hne => ?_⟩
  rcases (checkAPI_eq_none_iff api).1 h.2 with h0 | h1
  · exact absurd h0 hne
  · rw [h.1, h1]; rfl

/-- C9 (as the code has it): a `Create` request whose api string is empty succeeds on the
empty table with a response whose api string is `"v1"`, not the empty string of the
request. -/
theorem C9_empty_api_not_echoed :
    (Create tableStore ⟨"", some ⟨0, "Buy milk", "", some ⟨1704067200, 0⟩⟩⟩
      ⟨⟨[], none⟩, []⟩).1 = .ok ⟨"v1", 1⟩ ∧
    (⟨"v1", 1⟩ : CreateResponse).Api ≠
      (⟨"", some ⟨0, "Buy milk", "", some ⟨1704067200, 0⟩⟩⟩ : CreateRequest).Api := by
  have h : checkAPI "" = none := (checkAPI_eq_none_iff "").2 (Or.inl rfl)
  constructor
  · simp [Create, connect, h, tableStore, tableStoreKeeping, microseconds, Time.truncate, deferred, dbPrepare, stmExec, World.log,
      ptypesTimestamp, validateTimestamp, minValidSeconds, maxValidSeconds, timeUnix,
      parseSQL, nextID, maxID, apiVersion]
  · decide

/-- C9, amended: on every request on which one of the five operations succeeds, the api
string of the response is `"v1"`, the version the service implements; it equals the api
string of the request whenever that string is non-empty. -/
theorem C9_response_api {σ : Type} (db : Store σ) (w : World σ) :
    (∀ (r : CreateRequest) (resp : CreateResponse), (Create db r w).1 = .ok resp →
      resp.Api = "v1" ∧ (r.Api ≠ "" → resp.Api = r.Api)) ∧
    (∀ (r : ReadRequest) (resp : ReadResponse), (Read db r w).1 = .ok resp →
      resp.Api = "v1" ∧ (r.Api ≠ "" → resp.Api = r.Api)) ∧
    (∀ (r : ReadAllRequest) (resp : ReadAllResponse), (ReadAll db r w).1 = .ok resp →
      resp.Api = "v1" ∧ (r.Api ≠ "" → resp.Api = r.Api)) ∧
    (∀ (r : UpdateRequest) (resp : UpdateResponse), (Update db r w).1 = .ok resp →
      resp.Api = "v1" ∧ (r.Api ≠ "" → resp.Api = r.Api)) ∧
    (∀ (r : DeleteRequest) (resp : DeleteResponse), (Delete db r w).1 = .ok resp →
      resp.Api = "v1" ∧ (r.Api ≠ "" → resp.Api = r.Api)) :=
  ⟨fun r resp h => api_of_ok r.Api resp.Api (Create_ok_api db r w resp h),
   fun r resp h => api_of_ok r.Api resp.Api (Read_ok_api db r w resp h),
   fun r resp h => api_of_ok r.Api resp.Api (ReadAll_ok_api db r w resp h),
   fun r resp h => api_of_ok r.Api resp.Api (Update_ok_api db r w resp h),
   fun r resp h => api_of_ok r.Api resp.Api (Delete_ok_api db r w resp h)⟩

/-- C9, amended, at `ReadAll` with api `"v1"` on the empty table: the call succeeds and
the response carries `"v1"`, the api string of the request. -/
theorem C9_response_api_witness :
    (ReadAll tableStore ⟨"v1"⟩ ⟨⟨[], none⟩, []⟩).1 = .ok ⟨"v1", []⟩ ∧
    ((⟨"v1", []⟩ : ReadAllResponse).Api = "v1" ∧
      ((⟨"v1"⟩ : ReadAllRequest).Api ≠ "" →
        (⟨"v1", []⟩ : ReadAllResponse).Api = (⟨"v1"⟩ : ReadAllRequest).Api)) := by
  have h : checkAPI "v1" = none := (checkAPI_eq_none_iff "v1").2 (Or.inr rfl)
  have hr : (ReadAll tableStore ⟨"v1"⟩ ⟨⟨[], none⟩, []⟩).1 = .ok ⟨"v1", []⟩ := by
    simp [ReadAll, connect, h, tableStore, tableStoreKeeping, microseconds, Time.truncate, deferred, dbPrepare, stmQuery, World.log,
      parseSQL, readAllLoop, apiVersion]
  exact ⟨hr, (C9_response_api tableStore ⟨⟨[], none⟩, []⟩).2.2.1 ⟨"v1"⟩ ⟨"v1", []⟩ hr⟩

/-! ## Reminder validation -/

theorem validateTimestamp_invalid (rem : Option Timestamp)
    (h : rem = none ∨ ∃ ts, rem = some ts ∧
      (ts.Seconds < minValidSeconds ∨ ts.Seconds ≥ maxValidSeconds ∨
        ts.Nanos < 0 ∨ ts.Nanos ≥ 1000000000)) :
    ∃ e, validateTimestamp rem = some e := by
  rcases h with h | ⟨ts, h, hr⟩
  · subst h; exact ⟨_, rfl⟩
  · subst h
    unfold validateTimestamp
    simp only
    split
    · exact ⟨_, rfl⟩
    · split
      · exact ⟨_, rfl⟩
      · split
        · exact ⟨_, rfl⟩
        · rename_i h1 h2 h3
          exfalso
          rcases hr with hr | hr | hr | hr
          · exact h1 hr
          · exact h2 hr
          · exact h3 (Or.inl hr)
          · exact h3 (Or.inr hr)

/-- C7 (as the code has it): the connection is acquired before the reminder is validated.
A `Create` request with api `"v1"` and an absent reminder, on a table that cannot supply
a connection, fails with `Unknown`, not with `InvalidArgument`. -/
theorem C7_invalid_reminder_conn_first :
    checkAPI "v1" = none ∧
    validateTimestamp (none : Option Timestamp) = some "timestamp: nil Timestamp" ∧
    (Create tableStore ⟨"v1", some ⟨0, "Buy milk", "", none⟩⟩
      ⟨⟨[], some "connection refused"⟩, []⟩).1 =
      .fail ⟨.Unknown, "cannot connect to database connection refused"⟩ ∧
    (Create tableStore ⟨"v1", some ⟨0, "Buy milk", "", none⟩⟩
      ⟨⟨[], some "connection refused"⟩, []⟩).1.failCode ≠ some .InvalidArgument := by
  have h : checkAPI "v1" = none := (checkAPI_eq_none_iff "v1").2 (Or.inr rfl)
  refine ⟨h, rfl, ?_, ?_⟩ <;>
    simp [Create, connect, h, tableStore, tableStoreKeeping, microseconds, Time.truncate, World.log, Outcome.failCode]

/-- C7, amended: for every `Create` and every `Update` request with an accepted api
version, an available connection and a present task payload whose reminder does not
decode to a valid point in time (absent, seconds outside years 0001-9999, or nanos
outside `[0, 1e9)`), the operation fails with the `InvalidArgument` classification; the
stored data is unchanged and the only calls made on the store are the acquisition and
the release of the connection: no statement is prepared or executed. -/
theorem C7_invalid_reminder {σ : Type} (db : Store σ) (w : World σ) (api : String)
    (td : ToDo) (hapi : checkAPI api = none) (hconn : db.Conn w.st = none)
    (hrem : td.Reminder = none ∨ ∃ ts, td.Reminder = some ts ∧
      (ts.Seconds < minValidSeconds ∨ ts.Seconds ≥ maxValidSeconds ∨
        ts.Nanos < 0 ∨ ts.Nanos ≥ 1000000000)) :
    ∃ e, validateTimestamp td.Reminder = some e ∧
      Create db ⟨api, some td⟩ w =
        (.fail ⟨.InvalidArgument, "reminder filed has invalid " ++ e⟩,
          ⟨w.st, w.calls ++ [.Conn, .ConnClose]⟩) ∧
      Update db ⟨api, some td⟩ w =
        (.fail ⟨.InvalidArgument, "reminder filed has invalid " ++ e⟩,
          ⟨w.st, w.calls ++ [.Conn, .ConnClose]⟩) := by
  obtain ⟨e, he⟩ := validateTimestamp_invalid td.Reminder hrem
  refine ⟨e, he, ?_, ?_⟩
  · simp [Create, connect, hapi, hconn, ptypesTimestamp, he, deferred, World.log]
  · simp [Update, connect, hapi, hconn, ptypesTimestamp, he, deferred, World.log]

/-- C7, amended, at a reminder one second after the year 9999, api `"v1"`, on a table
with one row. -/
theorem C7_invalid_reminder_witness :
    ∃ e, validateTimestamp (some ⟨253402300800, 0⟩) = some e ∧
      Create tableStore ⟨"v1", some ⟨0, "t", "d", some ⟨253402300800, 0⟩⟩⟩
          ⟨⟨[⟨1, "a", "b", ⟨0, 0⟩⟩], none⟩, []⟩ =
        (.fail ⟨.InvalidArgument, "reminder filed has invalid " ++ e⟩,
          ⟨⟨[⟨1, "a", "b", ⟨0, 0⟩⟩], none⟩, [] ++ [.Conn, .ConnClose]⟩) ∧
      Update tableStore ⟨"v1", some ⟨0, "t", "d", some ⟨253402300800, 0⟩⟩⟩
          ⟨⟨[⟨1, "a", "b", ⟨0, 0⟩⟩], none⟩, []⟩ =
        (.fail ⟨.InvalidArgument, "reminder filed has invalid " ++ e⟩,
          ⟨⟨[⟨1, "a", "b", ⟨0, 0⟩⟩], none⟩, [] ++ [.Conn, .ConnClose]⟩) :=
  C7_invalid_reminder tableStore ⟨⟨[⟨1, "a", "b", ⟨0, 0⟩⟩], none⟩, []⟩ "v1"
    ⟨0, "t", "d", some ⟨253402300800, 0⟩⟩ ((checkAPI_eq_none_iff "v1").2 (Or.inr rfl)) rfl
    (Or.inr ⟨⟨253402300800, 0⟩, rfl, Or.inr (Or.inl (by decide))⟩)

/-! ## An absent task payload -/

/-- C10 (as the code has it): with api `"v1"` and an available connection, `Create` and
`Update` on a request whose task payload is absent end in a nil pointer dereference,
after the connection was acquired (and released by the deferred close). -/
theorem C10_absent_payload_nil_dereference :
    Create tableStore ⟨"v1", none⟩ ⟨⟨[], none⟩, []⟩ =
      (.nilDeref, ⟨⟨[], none⟩, [.Conn, .ConnClose]⟩) ∧
    Update tableStore ⟨"v1", none⟩ ⟨⟨[], none⟩, []⟩ =
      (.nilDeref, ⟨⟨[], none⟩, [.Conn, .ConnClose]⟩) := by
  have h : checkAPI "v1" = none := (checkAPI_eq_none_iff "v1").2 (Or.inr rfl)
  constructor <;> simp [Create, Update, connect, h, tableStore, tableStoreKeeping, microseconds, Time.truncate, deferred, World.log]

/-! ## Reading rows -/

theorem readAllLoop_all_decoded (items : List (Except String Scanned)) (acc : List ToDo)
    (h : ∀ row ∈ items, decodeRow row ≠ none) :
    ∃ l, readAllLoop items acc = .ok (acc ++ l) ∧ l.map some = items.map decodeRow := by
  induction items generalizing acc with
  | nil => exact ⟨[], by simp [readAllLoop]⟩
  | cons row rest ih =>
    have hrow := h row (List.mem_cons_self _ _)
    have hrest : ∀ r ∈ rest, decodeRow r ≠ none :=
      fun r hr => h r (List.mem_cons_of_mem _ hr)
    cases row with
    | error e => simp [decodeRow] at hrow
    | ok sc =>
      cases hts : ptypesTimestampProto sc.Reminder with
      | error e => simp [decodeRow, hts] at hrow
      | ok ts =>
        obtain ⟨l, hl, hmap⟩ := ih (acc ++ [⟨sc.Id, sc.Title, sc.Description, some ts⟩]) hrest
        refine ⟨⟨sc.Id, sc.Title, sc.Description, some ts⟩ :: l, ?_, ?_⟩
        · simp only [readAllLoop, hts, hl, List.append_assoc, List.singleton_append]
        · simp only [List.map_cons, hmap, decodeRow, hts]

theorem readAllLoop_some_undecoded (items : List (Except String Scanned)) (acc : List ToDo)
    (h : ∃ row ∈ items, decodeRow row = none) :
    ∃ err, readAllLoop items acc = .error err := by
  induction items generalizing acc with
  | nil => obtain ⟨row, hr, _⟩ := h; cases hr
  | cons row rest ih =>
    cases row with
    | error e => exact ⟨_, by simp only [readAllLoop]; rfl⟩
    | ok sc =>
      cases hts : ptypesTimestampProto sc.Reminder with
      | error e => exact ⟨_, by simp only [readAllLoop, hts]; rfl⟩
      | ok ts =>
        have hrest : ∃ r ∈ rest, decodeRow r = none := by
          obtain ⟨r, hr, hd⟩ := h
          rcases List.mem_cons.1 hr with h1 | h1
          · subst h1; simp [decodeRow, hts] at hd
          · exact ⟨r, h1, hd⟩
        obtain ⟨err, he⟩ := ih (acc ++ [⟨sc.Id, sc.Title, sc.Description, some ts⟩]) hrest
        exact ⟨err, by simp only [readAllLoop, hts, he]⟩

/-- C5: for a `Read` request with an accepted api version and an available connection,
on which the id-filtered SELECT is prepared and queried, the rows the SELECT yields
decide the result: no row (and no iteration error) gives a `NotFound` failure whose
message names the requested id; exactly one row that scans and whose reminder converts
gives a response carrying that row's id, title, description and reminder; two or more
rows give an `Unknown` failure, never a task. -/
theorem C5_read_by_row_count {σ : Type} (db : Store σ) (w : World σ) (r : ReadRequest)
    (rows : Rows) (hapi : checkAPI r.Api = none) (hconn : db.Conn w.st = none)
    (hprep : db.PrepareContext
      "SELECT `ID`, `Title`, `Description`, `Reminder` FROM ToDo WHERE `ID`=?" w.st = none)
    (hq : db.QueryContext
      "SELECT `ID`, `Title`, `Description`, `Reminder` FROM ToDo WHERE `ID`=?"
      [.int r.Id] w.st = .ok rows) :
    (rows.items = [] → rows.err = none →
      (Read db r w).1 =
        .fail ⟨.NotFound, "ToDo with ID='" ++ toString r.Id ++ "' is not found"⟩) ∧
    (∀ sc ts, rows.items = [.ok sc] → ptypesTimestampProto sc.Reminder = .ok ts →
      (Read db r w).1 =
        .ok ⟨"v1", some ⟨sc.Id, sc.Title, sc.Description, some ts⟩⟩) ∧
    (2 ≤ rows.items.length → (Read db r w).1.failCode = some .Unknown) := by
  refine ⟨fun hi he => ?_, fun sc ts hi hts => ?_, fun hlen => ?_⟩
  · simp [Read, connect, hapi, hconn, dbPrepare, stmQuery, World.log, hprep, hq, deferred,
      hi, he]
  · simp [Read, connect, hapi, hconn, dbPrepare, stmQuery, World.log, hprep, hq, deferred,
      hi, hts, apiVersion]
  · obtain ⟨items, err⟩ := rows
    match items, hlen with
    | row :: row2 :: rest, _ =>
      cases row with
      | error e =>
        simp [Read, connect, hapi, hconn, dbPrepare, stmQuery, World.log, hprep, hq,
          deferred, Outcome.failCode]
      | ok sc =>
        cases hts : ptypesTimestampProto sc.Reminder <;>
          simp [Read, connect, hapi, hconn, dbPrepare, stmQuery, World.log, hprep, hq,
            deferred, Outcome.failCode, hts]

/-- C6: for a `ReadAll` request with an accepted api version and an available connection,
on which the unfiltered SELECT is prepared and queried: when every row the SELECT yields
decodes (and the iteration ends without error) `ReadAll` succeeds with one task per row,
in the order of the rows, each the decoding of its row, which is the empty list for zero
rows; when some row fails to scan or its reminder cannot be converted, `ReadAll` fails
with the `Unknown` classification and returns no list. -/
theorem C6_readAll_rows {σ : Type} (db : Store σ) (w : World σ) (req : ReadAllRequest)
    (rows : Rows) (hapi : checkAPI req.Api = none) (hconn : db.Conn w.st = none)
    (hprep : db.PrepareContext
      "SELECT `ID`, `Title`, `Description`, `Reminder` FROM ToDo" w.st = none)
    (hq : db.QueryContext
      "SELECT `ID`, `Title`, `Description`, `Reminder` FROM ToDo" [] w.st = .ok rows) :
    ((∀ row ∈ rows.items, decodeRow row ≠ none) → rows.err = none →
      ∃ list, (ReadAll db req w).1 = .ok ⟨"v1", list⟩ ∧
        list.map some = rows.items.map decodeRow) ∧
    (rows.items = [] → rows.err = none → (ReadAll db req w).1 = .ok ⟨"v1", []⟩) ∧
    ((∃ row ∈ rows.items, decodeRow row = none) →
      (ReadAll db req w).1.failCode = some .Unknown) := by
  refine ⟨fun hall he => ?_, fun hi he => ?_, fun hbad => ?_⟩
  · obtain ⟨l, hl, hmap⟩ := readAllLoop_all_decoded rows.items [] hall
    refine ⟨l, ?_, hmap⟩
    simp [ReadAll, connect, hapi, hconn, dbPrepare, stmQuery, World.log, hprep, hq,
      deferred, hl, he, apiVersion]
  · simp [ReadAll, connect, hapi, hconn, dbPrepare, stmQuery, World.log, hprep, hq,
      deferred, hi, he, readAllLoop, apiVersion]
  · obtain ⟨err, hl⟩ := readAllLoop_some_undecoded rows.items [] hbad
    have hc := readAllLoop_error_code _ _ _ hl
    simp [ReadAll, connect, hapi, hconn, dbPrepare, stmQuery, World.log, hprep, hq,
      deferred, hl, Outcome.failCode, hc]

/-- C5 at three tables, `Read` of id 7 with api `"v1"`: the empty table gives `NotFound`,
a table with one row of id 7 gives that row, a table with two rows of id 7 gives
`Unknown`. -/
theorem C5_read_by_row_count_witness :
    (Read tableStore ⟨"v1", 7⟩ ⟨⟨[], none⟩, []⟩).1 =
      .fail ⟨.NotFound, "ToDo with ID='" ++ toString (7 : Int) ++ "' is not found"⟩ ∧
    (Read tableStore ⟨"v1", 7⟩
        ⟨⟨[⟨3, "a", "b", ⟨0, 0⟩⟩, ⟨7, "Buy milk", "", ⟨1704067200, 5⟩⟩], none⟩, []⟩).1 =
      .ok ⟨"v1", some ⟨7, "Buy milk", "", some ⟨1704067200, 5⟩⟩⟩ ∧
    (Read tableStore ⟨"v1", 7⟩
        ⟨⟨[⟨7, "a", "b", ⟨0, 0⟩⟩, ⟨7, "Buy milk", "", ⟨1704067200, 5⟩⟩], none⟩, []⟩).1.failCode =
      some .Unknown := by
  have h : checkAPI "v1" = none := (checkAPI_eq_none_iff "v1").2 (Or.inr rfl)
  refine ⟨?_, ?_, ?_⟩
  · exact (C5_read_by_row_count tableStore ⟨⟨[], none⟩, []⟩ ⟨"v1", 7⟩ ⟨[], none⟩ h rfl
      (by simp [tableStore, tableStoreKeeping, microseconds, Time.truncate, parseSQL]) (by simp [tableStore, tableStoreKeeping, microseconds, Time.truncate, parseSQL])).1 rfl rfl
  · exact (C5_read_by_row_count tableStore
      ⟨⟨[⟨3, "a", "b", ⟨0, 0⟩⟩, ⟨7, "Buy milk", "", ⟨1704067200, 5⟩⟩], none⟩, []⟩ ⟨"v1", 7⟩
      ⟨[.ok ⟨7, "Buy milk", "", ⟨1704067200, 5⟩⟩], none⟩ h rfl
      (by simp [tableStore, tableStoreKeeping, microseconds, Time.truncate, parseSQL])
      (by simp [tableStore, tableStoreKeeping, microseconds, Time.truncate, parseSQL, Row.scan])).2.1
      ⟨7, "Buy milk", "", ⟨1704067200, 5⟩⟩ ⟨1704067200, 5⟩ rfl
      (by simp [ptypesTimestampProto, validateTimestamp, minValidSeconds, maxValidSeconds])
  · exact (C5_read_by_row_count tableStore
      ⟨⟨[⟨7, "a", "b", ⟨0, 0⟩⟩, ⟨7, "Buy milk", "", ⟨1704067200, 5⟩⟩], none⟩, []⟩ ⟨"v1", 7⟩
      ⟨[.ok ⟨7, "a", "b", ⟨0, 0⟩⟩, .ok ⟨7, "Buy milk", "", ⟨1704067200, 5⟩⟩], none⟩ h rfl
      (by simp [tableStore, tableStoreKeeping, microseconds, Time.truncate, parseSQL])
      (by simp [tableStore, tableStoreKeeping, microseconds, Time.truncate, parseSQL, Row.scan])).2.2 (by simp)

/-- C6 at three stores, `ReadAll` with api `"v1"`: a table of two rows gives the two
tasks in table order, the empty table gives the empty list, and a result set whose
second row fails to scan gives `Unknown`. -/
theorem C6_readAll_rows_witness :
    (∃ list, (ReadAll tableStore ⟨"v1"⟩
        ⟨⟨[⟨3, "a", "b", ⟨0, 0⟩⟩, ⟨7, "Buy milk", "", ⟨1704067200, 5⟩⟩], none⟩, []⟩).1 =
          .ok ⟨"v1", list⟩ ∧
      list.map some =
        [Except.ok ⟨3, "a", "b", ⟨0, 0⟩⟩,
          Except.ok ⟨7, "Buy milk", "", ⟨1704067200, 5⟩⟩].map decodeRow) ∧
    (ReadAll tableStore ⟨"v1"⟩ ⟨⟨[], none⟩, []⟩).1 = .ok ⟨"v1", []⟩ ∧
    (ReadAll (rowsStub ⟨[.ok ⟨3, "a", "b", ⟨0, 0⟩⟩,
        .error "sql: Scan error on column index 1: converting NULL to string is unsupported"],
        none⟩) ⟨"v1"⟩ ⟨(), []⟩).1.failCode = some .Unknown := by
  have h : checkAPI "v1" = none := (checkAPI_eq_none_iff "v1").2 (Or.inr rfl)
  refine ⟨?_, ?_, ?_⟩
  · exact (C6_readAll_rows tableStore
      ⟨⟨[⟨3, "a", "b", ⟨0, 0⟩⟩, ⟨7, "Buy milk", "", ⟨1704067200, 5⟩⟩], none⟩, []⟩ ⟨"v1"⟩
      ⟨[.ok ⟨3, "a", "b", ⟨0, 0⟩⟩, .ok ⟨7, "Buy milk", "", ⟨1704067200, 5⟩⟩], none⟩ h rfl
      (by simp [tableStore, tableStoreKeeping, microseconds, Time.truncate, parseSQL])
      (by simp [tableStore, tableStoreKeeping, microseconds, Time.truncate, parseSQL, Row.scan])).1
      (by simp [decodeRow, ptypesTimestampProto, validateTimestamp, minValidSeconds,
        maxValidSeconds]) rfl
  · exact (C6_readAll_rows tableStore ⟨⟨[], none⟩, []⟩ ⟨"v1"⟩ ⟨[], none⟩ h rfl
      (by simp [tableStore, tableStoreKeeping, microseconds, Time.truncate, parseSQL]) (by simp [tableStore, tableStoreKeeping, microseconds, Time.truncate, parseSQL])).2.1 rfl rfl
  · exact (C6_readAll_rows (rowsStub ⟨[.ok ⟨3, "a", "b", ⟨0, 0⟩⟩,
        .error "sql: Scan error on column index 1: converting NULL to string is unsupported"],
        none⟩) ⟨(), []⟩ ⟨"v1"⟩ _ h rfl rfl rfl).2.2
      ⟨_, List.mem_cons_of_mem _ (List.mem_cons_self _ _), rfl⟩

/-! ## The table store -/

theorem maxID_ge (rows : List Row) (r : Row) (h : r ∈ rows) : r.ID ≤ maxID rows := by
  induction rows with
  | nil => cases h
  | cons x xs ih =>
    simp only [maxID]
    rcases List.mem_cons.1 h with h1 | h1
    · subst h1; exact le_max_left _ _
    · exact le_trans (ih h1) (le_max_right _ _)

theorem filter_nextID (rows : List Row) :
    rows.filter (fun r => decide (r.ID = nextID rows)) = [] := by
  rw [List.filter_eq_nil_iff]
  intro r hr
  have := maxID_ge rows r hr
  simp only [nextID, decide_eq_true_eq]
  omega

theorem filter_absent (rows : List Row) (id : Int) (h : ∀ r ∈ rows, r.ID ≠ id) :
    rows.filter (fun r => decide (r.ID = id)) = [] := by
  rw [List.filter_eq_nil_iff]
  intro r hr
  simpa using h r hr

theorem validateTimestamp_none (rem : Option Timestamp) (h : validateTimestamp rem = none) :
    ∃ ts, rem = some ts ∧ minValidSeconds ≤ ts.Seconds ∧ ts.Seconds < maxValidSeconds ∧
      0 ≤ ts.Nanos ∧ ts.Nanos < 1000000000 := by
  cases rem with
  | none => simp [validateTimestamp] at h
  | some ts =>
    refine ⟨ts, rfl, ?_⟩
    unfold validateTimestamp at h
    simp only at h
    split at h
    · cases h
    · split at h
      · cases h
      · split at h
        · cases h
        · rename_i h1 h2 h3
          omega

/-- Decoding a valid timestamp with `ptypes.Timestamp` and encoding the time again with
`ptypes.TimestampProto` gives the timestamp back. -/
theorem timestamp_roundtrip (ts : Timestamp) (h : validateTimestamp (some ts) = none) :
    ptypesTimestampProto (ptypesTimestamp (some ts)).1 = .ok ts := by
  obtain ⟨ts', hts, h1, h2, h3, h4⟩ := validateTimestamp_none _ h
  cases hts
  have hn : ¬ (ts.Nanos < 0 ∨ ts.Nanos ≥ 1000000000) := by omega
  simp only [ptypesTimestamp, timeUnix, hn, if_false, ptypesTimestampProto, h]

/-- On a table store, whatever it keeps of a time, `Read` of an id that no row carries
fails with `NotFound`. -/
theorem Read_absent_id (keep : Time → Time) (t : Table) (calls : List Call) (api : String)
    (id : Int) (hapi : checkAPI api = none) (hconn : t.connErr = none)
    (habs : ∀ row ∈ t.rows, row.ID ≠ id) :
    (Read (tableStoreKeeping keep) ⟨api, id⟩ ⟨t, calls⟩).1 =
      .fail ⟨.NotFound, "ToDo with ID='" ++ toString id ++ "' is not found"⟩ := by
  simp [Read, connect, hapi, tableStoreKeeping, hconn, dbPrepare, stmQuery, World.log,
    parseSQL, deferred, filter_absent t.rows id habs]

/-- On a table store, whatever it keeps of a time, `Delete` of an id that no row carries
fails with `NotFound`. -/
theorem Delete_absent_id (keep : Time → Time) (t : Table) (calls : List Call)
    (api : String) (id : Int) (hapi : checkAPI api = none) (hconn : t.connErr = none)
    (habs : ∀ row ∈ t.rows, row.ID ≠ id) :
    (Delete (tableStoreKeeping keep) ⟨api, id⟩ ⟨t, calls⟩).1 =
      .fail ⟨.NotFound, "ToDo with ID='" ++ toString id ++ "' is not found"⟩ := by
  simp [Delete, connect, hapi, tableStoreKeeping, hconn, dbPrepare, stmExec, World.log,
    parseSQL, deferred, filter_absent t.rows id habs]

/-- On a table store, an `Update` whose reminder is valid, with an accepted api version
and an available connection, assigns the title and description of the request and what
the store keeps of its reminder to every row of the table, whatever the id of the
task. -/
theorem Update_table_rows (keep : Time → Time) (t : Table) (calls : List Call)
    (api : String) (td : ToDo) (hapi : checkAPI api = none) (hconn : t.connErr = none)
    (hrem : validateTimestamp td.Reminder = none) :
    (Update (tableStoreKeeping keep) ⟨api, some td⟩ ⟨t, calls⟩).2.st.rows =
      t.rows.map fun r =>
        { r with Title := td.Title, Description := td.Description,
                 Reminder := keep (ptypesTimestamp td.Reminder).1 } := by
  simp [Update, connect, hapi, tableStoreKeeping, hconn, ptypesTimestamp, hrem, deferred,
    dbPrepare, stmExec, World.log, parseSQL]
  split <;> rfl

/-- C2 (as the code has it): the UPDATE statement of `Update` carries no `WHERE` clause.
On a table whose only row has id 1, `Update` of a task with id 2 (an id no row carries),
api `"v1"` and a valid reminder succeeds with one affected row and overwrites the row of
id 1, instead of failing with `NotFound`. -/
theorem C2_update_absent_id_succeeds :
    (∀ row ∈ [(⟨1, "a", "b", ⟨0, 0⟩⟩ : Row)], row.ID ≠ 2) ∧
    Update tableStore ⟨"v1", some ⟨2, "x", "y", some ⟨5, 0⟩⟩⟩
        ⟨⟨[⟨1, "a", "b", ⟨0, 0⟩⟩], none⟩, []⟩ =
      (.ok ⟨"v1", 1⟩,
        ⟨⟨[⟨1, "x", "y", ⟨5, 0⟩⟩], none⟩,
          [.Conn, .Prepare "UPDATE ToDo SET `Title`=?, `Description`=?, `Reminder`=?",
           .Exec "UPDATE ToDo SET `Title`=?, `Description`=?, `Reminder`=?"
             [.str "x", .str "y", .time ⟨5, 0⟩],
           .ConnClose]⟩) := by
  have h : checkAPI "v1" = none := (checkAPI_eq_none_iff "v1").2 (Or.inr rfl)
  constructor
  · simp
  · simp [Update, connect, h, tableStore, tableStoreKeeping, microseconds, Time.truncate, deferred, dbPrepare, stmExec, World.log,
      ptypesTimestamp, validateTimestamp, minValidSeconds, maxValidSeconds, timeUnix,
      parseSQL, Row.changedBy, apiVersion]

/-- C3 (as the code has it): the UPDATE statement of `Update` is not scoped to the id of
the task.  On a table with rows of id 1 and id 2, a successful `Update` of the task with
id 1 reports two affected rows and overwrites the row of id 2 as well. -/
theorem C3_update_overwrites_other_rows :
    Update tableStore ⟨"v1", some ⟨1, "x", "y", some ⟨5, 0⟩⟩⟩
        ⟨⟨[⟨1, "a", "b", ⟨0, 0⟩⟩, ⟨2, "c", "d", ⟨9, 0⟩⟩], none⟩, []⟩ =
      (.ok ⟨"v1", 2⟩,
        ⟨⟨[⟨1, "x", "y", ⟨5, 0⟩⟩, ⟨2, "x", "y", ⟨5, 0⟩⟩], none⟩,
          [.Conn, .Prepare "UPDATE ToDo SET `Title`=?, `Description`=?, `Reminder`=?",
           .Exec "UPDATE ToDo SET `Title`=?, `Description`=?, `Reminder`=?"
             [.str "x", .str "y", .time ⟨5, 0⟩],
           .ConnClose]⟩) ∧
    (⟨2, "x", "y", ⟨5, 0⟩⟩ : Row) ≠ ⟨2, "c", "d", ⟨9, 0⟩⟩ := by
  have h : checkAPI "v1" = none := (checkAPI_eq_none_iff "v1").2 (Or.inr rfl)
  constructor
  · simp [Update, connect, h, tableStore, tableStoreKeeping, microseconds, Time.truncate, deferred, dbPrepare, stmExec, World.log,
      ptypesTimestamp, validateTimestamp, minValidSeconds, maxValidSeconds, timeUnix,
      parseSQL, Row.changedBy, apiVersion]
  · simp

/-- What a successful `Create` on a table store did: it appended one row under the
fresh identifier, holding the title, the description and what the store keeps of the
decoded reminder. -/
theorem Create_ok_table (keep : Time → Time) (t : Table) (calls : List Call)
    (api : String) (T : ToDo) (resp : CreateResponse)
    (h : (Create (tableStoreKeeping keep) ⟨api, some T⟩ ⟨t, calls⟩).1 = .ok resp) :
    checkAPI api = none ∧ t.connErr = none ∧ validateTimestamp T.Reminder = none ∧
      resp.Id = nextID t.rows ∧
      (Create (tableStoreKeeping keep) ⟨api, some T⟩ ⟨t, calls⟩).2.st =
        { t with rows := t.rows ++
            [{ ID := nextID t.rows, Title := T.Title, Description := T.Description,
               Reminder := keep (ptypesTimestamp T.Reminder).1 }] } := by
  cases hg : checkAPI api with
  | some err => simp [Create, hg] at h
  | none =>
    cases hc : t.connErr with
    | some e => simp [Create, connect, hg, tableStoreKeeping, hc] at h
    | none =>
      cases hv : validateTimestamp T.Reminder with
      | some e =>
        simp [Create, connect, hg, tableStoreKeeping, hc, ptypesTimestamp, hv,
          deferred] at h
      | none =>
        simp only [Create, connect, hg, tableStoreKeeping, hc, ptypesTimestamp, hv,
          deferred, dbPrepare, stmExec, World.log, parseSQL, if_true,
          Outcome.ok.injEq] at h ⊢
        subst h
        simp

/-- After a successful `Create` of `T` on a table store, `Read` of the returned id finds
the one new row and returns it with the wire encoding `ts` of the stored time, when the
stored time has one. -/
theorem Read_after_Create (keep : Time → Time) (t : Table) (calls : List Call)
    (api apiRead : String) (T : ToDo) (resp : CreateResponse) (ts : Timestamp)
    (hcreate : (Create (tableStoreKeeping keep) ⟨api, some T⟩ ⟨t, calls⟩).1 = .ok resp)
    (hread : checkAPI apiRead = none)
    (hts : ptypesTimestampProto (keep (ptypesTimestamp T.Reminder).1) = .ok ts) :
    (Read (tableStoreKeeping keep) ⟨apiRead, resp.Id⟩
        (Create (tableStoreKeeping keep) ⟨api, some T⟩ ⟨t, calls⟩).2).1 =
      .ok ⟨"v1", some ⟨resp.Id, T.Title, T.Description, some ts⟩⟩ := by
  obtain ⟨_, hc, _, hid, hst⟩ := Create_ok_table keep t calls api T resp hcreate
  generalize Create (tableStoreKeeping keep) ⟨api, some T⟩ ⟨t, calls⟩ = out at hst
  obtain ⟨o, w'⟩ := out
  obtain ⟨st', calls'⟩ := w'
  simp only at hst
  subst hst
  simp [Read, connect, hread, tableStoreKeeping, hc, dbPrepare, stmQuery, World.log,
    parseSQL, deferred, hid, List.filter_append, filter_nextID, Row.scan, hts, apiVersion]

/-- A valid decoded reminder cut down to a whole multiple of a positive unit is still a
valid time: it encodes to the timestamp with the same seconds and the cut nanos. -/
theorem truncate_encodes (u : Int) (hu : 0 < u) (ts : Timestamp)
    (h : validateTimestamp (some ts) = none) :
    ptypesTimestampProto (Time.truncate u (ptypesTimestamp (some ts)).1) =
      .ok ⟨ts.Seconds, ts.Nanos - ts.Nanos % u⟩ := by
  obtain ⟨ts', hts, h1, h2, h3, h4⟩ := validateTimestamp_none _ h
  cases hts
  have hn : ¬ (ts.Nanos < 0 ∨ ts.Nanos ≥ 1000000000) := by omega
  have hm0 : 0 ≤ ts.Nanos % u := Int.emod_nonneg _ (by omega)
  have hm1 : ts.Nanos % u ≤ ts.Nanos := by
    have he := Int.emod_add_ediv' ts.Nanos u
    have hd := mul_nonneg (Int.ediv_nonneg h3 hu.le) hu.le
    linarith
  have hv : validateTimestamp (some ⟨ts.Seconds, ts.Nanos - ts.Nanos % u⟩) = none := by
    have a1 : ¬ ts.Seconds < minValidSeconds := by omega
    have a2 : ¬ ts.Seconds ≥ maxValidSeconds := by omega
    have a3 : ¬ (ts.Nanos - ts.Nanos % u < 0 ∨ ts.Nanos - ts.Nanos % u ≥ 1000000000) := by
      omega
    simp only [validateTimestamp, a1, a2, a3, if_false]
  simp only [ptypesTimestamp, timeUnix, hn, if_false, Time.truncate, ptypesTimestampProto, hv]

/-- C4 (as the code and its store have it): the reminder is not read back as it was
created when the store keeps less than the nanoseconds.  On the empty table, kept to the
microsecond, `Create` with the reminder 2024-01-01T00:00:00.000000005Z succeeds with
id 1, and `Read` of id 1 returns the reminder with nanos 0, not 5. -/
theorem C4_reminder_nanos_not_kept :
    (Create tableStore ⟨"v1", some ⟨0, "Buy milk", "", some ⟨1704067200, 5⟩⟩⟩
      ⟨⟨[], none⟩, []⟩).1 = .ok ⟨"v1", 1⟩ ∧
    (Read tableStore ⟨"v1", 1⟩
      (Create tableStore ⟨"v1", some ⟨0, "Buy milk", "", some ⟨1704067200, 5⟩⟩⟩
        ⟨⟨[], none⟩, []⟩).2).1 =
      .ok ⟨"v1", some ⟨1, "Buy milk", "", some ⟨1704067200, 0⟩⟩⟩ ∧
    (some ⟨1704067200, 0⟩ : Option Timestamp) ≠ some ⟨1704067200, 5⟩ := by
  have h : checkAPI "v1" = none := (checkAPI_eq_none_iff "v1").2 (Or.inr rfl)
  refine ⟨?_, ?_, by decide⟩
  · simp [Create, connect, h, tableStore, tableStoreKeeping, deferred, dbPrepare, stmExec,
      World.log, ptypesTimestamp, validateTimestamp, minValidSeconds, maxValidSeconds,
      timeUnix, parseSQL, nextID, maxID, apiVersion]
  · simp [Create, Read, connect, h, tableStore, tableStoreKeeping, microseconds,
      Time.truncate, deferred, dbPrepare, stmExec, stmQuery, World.log, ptypesTimestamp,
      ptypesTimestampProto, validateTimestamp, minValidSeconds, maxValidSeconds, timeUnix,
      parseSQL, nextID, maxID, Row.scan, apiVersion]

/-- C4, amended: on a table store, whatever it keeps of a time, for every table and every
task `T`, if `Create` of `T` succeeds with id `i`, then `Read` of `i` (with an accepted
api version) on the resulting store finds the row of `T`: whenever the time the store
kept for the decoded reminder has a wire encoding, `Read` succeeds and returns the task
with id `i`, the title and description of `T` and that encoding as reminder.  When the
store kept the decoded reminder exactly, the reminder returned is that of `T`; when the
store cut it down to a whole multiple of a unit of nanoseconds, the reminder returned
has the seconds of `T` and the nanos of `T` cut down to that multiple. -/
theorem C4_create_then_read (keep : Time → Time) (t : Table) (calls : List Call)
    (api apiRead : String) (T : ToDo) (resp : CreateResponse)
    (hcreate : (Create (tableStoreKeeping keep) ⟨api, some T⟩ ⟨t, calls⟩).1 = .ok resp)
    (hread : checkAPI apiRead = none) :
    (∀ ts, ptypesTimestampProto (keep (ptypesTimestamp T.Reminder).1) = .ok ts →
      (Read (tableStoreKeeping keep) ⟨apiRead, resp.Id⟩
          (Create (tableStoreKeeping keep) ⟨api, some T⟩ ⟨t, calls⟩).2).1 =
        .ok ⟨"v1", some ⟨resp.Id, T.Title, T.Description, some ts⟩⟩) ∧
    (keep (ptypesTimestamp T.Reminder).1 = (ptypesTimestamp T.Reminder).1 →
      (Read (tableStoreKeeping keep) ⟨apiRead, resp.Id⟩
          (Create (tableStoreKeeping keep) ⟨api, some T⟩ ⟨t, calls⟩).2).1 =
        .ok ⟨"v1", some ⟨resp.Id, T.Title, T.Description, T.Reminder⟩⟩) ∧
    (∀ u : Int, 0 < u →
      keep (ptypesTimestamp T.Reminder).1 = Time.truncate u (ptypesTimestamp T.Reminder).1 →
      ∃ ts, T.Reminder = some ts ∧
        (Read (tableStoreKeeping keep) ⟨apiRead, resp.Id⟩
            (Create (tableStoreKeeping keep) ⟨api, some T⟩ ⟨t, calls⟩).2).1 =
          .ok ⟨"v1", some ⟨resp.Id, T.Title, T.Description,
            some ⟨ts.Seconds, ts.Nanos - ts.Nanos % u⟩⟩⟩) := by
  obtain ⟨_, _, hv, _, _⟩ := Create_ok_table keep t calls api T resp hcreate
  obtain ⟨ts0, hts0, _⟩ := validateTimestamp_none _ hv
  rw [hts0] at hv
  refine ⟨fun ts hts => Read_after_Create keep t calls api apiRead T resp ts hcreate hread hts,
    fun hk => ?_, fun u hu hk => ⟨ts0, hts0, ?_⟩⟩
  · have hrt := timestamp_roundtrip ts0 hv
    rw [← hts0] at hrt
    rw [Read_after_Create keep t calls api apiRead T resp ts0 hcreate hread
      (by rw [hk]; exact hrt), hts0]
  · have henc := truncate_encodes u hu ts0 hv
    rw [← hts0] at henc
    exact Read_after_Create keep t calls api apiRead T resp _ hcreate hread
      (by rw [hk]; exact henc)

/-- C4, amended, at the spec's scenario on the table kept to the microsecond: `Create`
with api `"v1"`, title `Buy milk`, an empty description and the reminder
2024-01-01T00:00:00Z on a table that holds a row of id 4 succeeds with id 5; the store
keeps that reminder exactly, and `Read` of id 5 returns the task with the same title,
description and reminder. -/
theorem C4_create_then_read_witness :
    (Create (tableStoreKeeping microseconds)
      ⟨"v1", some ⟨0, "Buy milk", "", some ⟨1704067200, 0⟩⟩⟩
      ⟨⟨[⟨4, "a", "b", ⟨0, 0⟩⟩], none⟩, []⟩).1 = .ok ⟨"v1", 5⟩ ∧
    microseconds (ptypesTimestamp (some ⟨1704067200, 0⟩)).1 =
      (ptypesTimestamp (some ⟨1704067200, 0⟩)).1 ∧
    (Read (tableStoreKeeping microseconds) ⟨"v1", 5⟩
      (Create (tableStoreKeeping microseconds)
        ⟨"v1", some ⟨0, "Buy milk", "", some ⟨1704067200, 0⟩⟩⟩
        ⟨⟨[⟨4, "a", "b", ⟨0, 0⟩⟩], none⟩, []⟩).2).1 =
      .ok ⟨"v1", some ⟨5, "Buy milk", "", some ⟨1704067200, 0⟩⟩⟩ := by
  have h : checkAPI "v1" = none := (checkAPI_eq_none_iff "v1").2 (Or.inr rfl)
  have hc : (Create (tableStoreKeeping microseconds)
      ⟨"v1", some ⟨0, "Buy milk", "", some ⟨1704067200, 0⟩⟩⟩
      ⟨⟨[⟨4, "a", "b", ⟨0, 0⟩⟩], none⟩, []⟩).1 = .ok ⟨"v1", 5⟩ := by
    simp [Create, connect, h, tableStoreKeeping, deferred, dbPrepare, stmExec, World.log,
      ptypesTimestamp, validateTimestamp, minValidSeconds, maxValidSeconds, timeUnix,
      parseSQL, nextID, maxID, apiVersion]
  have hk : microseconds (ptypesTimestamp (some ⟨1704067200, 0⟩)).1 =
      (ptypesTimestamp (some ⟨1704067200, 0⟩)).1 := by
    simp [microseconds, Time.truncate, ptypesTimestamp, timeUnix]
  exact ⟨hc, hk, (C4_create_then_read microseconds ⟨[⟨4, "a", "b", ⟨0, 0⟩⟩], none⟩ []
    "v1" "v1" ⟨0, "Buy milk", "", some ⟨1704067200, 0⟩⟩ ⟨"v1", 5⟩ hc h).2.1 hk⟩

end TodoService
